import Mathlib

/-!
Verification development for the conflux set-reconciliation library.

Embedded sources:
- zp.go: the finite field type Zp over arbitrary-precision integers
  (Go big.Int is modelled as Int; big.Int.Mod is Euclidean, matching
  Int.emod for a positive modulus).
- recon/peer.go: the per-connection reconciliation session state machine
  (interactWithClient and its helpers).

The ZSet type lives in a source file that is not part of the provided
sources; it is modelled from the spec where marked.
-/

set_option maxRecDepth 8000

/-- Zp from zp.go: a value in the finite field Z(p). P is the prime bound,
Z the value. Go big.Int is arbitrary precision, modelled as Int. -/
structure Zp where
  P : Int
  Z : Int
  deriving DecidableEq

/-- normalize from zp.go: Z := Z mod P, with Go big.Int Mod (Euclidean)
semantics, which Int.emod matches for a positive modulus. -/
def Zp.normalize (zp : Zp) : Zp := { zp with Z := zp.Z % zp.P }

/-- NewZp from zp.go: construct a Zp and normalize it. -/
def NewZp (p n : Int) : Zp := Zp.normalize { P := p, Z := n }

/-- assertZp from zp.go: the moduli-equality check; the Go code panics when
it fails, so callers treat a false result as an unrecoverable abort. -/
def assertZp (x y : Zp) : Bool := decide (x.P = y.P)

/-- Add from zp.go: the receiver accumulates each operand in order,
normalizing after each one; a modulus mismatch panics in Go, modelled
here as none. -/
def Zp.Add (zp : Zp) (values : List Zp) : Option Zp :=
  match values with
  | [] => some zp
  | v :: rest =>
      if assertZp zp v then Zp.Add (Zp.normalize { zp with Z := zp.Z + v.Z }) rest
      else none

/-- Modelled from the spec: ZSet (its source file zset.go is not among the
provided sources) is a duplicate-free collection of field elements with
bulk add and difference. Modelled as a duplicate-free list. -/
abbrev ZSet := List Zp

/-- Modelled from the spec: add one element keeping the set duplicate-free. -/
def ZSet.addOne (s : ZSet) (z : Zp) : ZSet := if z ∈ s then s else s ++ [z]

/-- Modelled from the spec: build a ZSet from the given elements. -/
def NewZSet (zs : List Zp) : ZSet := zs.foldl ZSet.addOne []

/-- Modelled from the spec: bulk add of all elements of t into s. -/
def ZSet.AddAll (s : ZSet) (t : ZSet) : ZSet := t.foldl ZSet.addOne s

/-- Modelled from the spec: ZSetDiff A B is the elements of A not in B. -/
def ZSetDiff (a b : ZSet) : ZSet := a.filter (fun z => decide (z ∉ b))

/-- Modelled from the spec: the elements of a ZSet. -/
def ZSet.Items (s : ZSet) : List Zp := s

theorem mem_addOne (s : ZSet) (y x : Zp) :
    x ∈ ZSet.addOne s y ↔ x ∈ s ∨ x = y := by
  unfold ZSet.addOne
  split
  · constructor
    · exact fun h => Or.inl h
    · rintro (h | rfl)
      · exact h
      · assumption
  · simp [or_comm]

theorem mem_foldl_addOne (xs : List Zp) (init : ZSet) (x : Zp) :
    x ∈ xs.foldl ZSet.addOne init ↔ x ∈ init ∨ x ∈ xs := by
  induction xs generalizing init with
  | nil => simp
  | cons y ys ih =>
      simp only [List.foldl_cons, ih, mem_addOne, List.mem_cons]
      tauto

theorem mem_NewZSet (xs : List Zp) (x : Zp) : x ∈ NewZSet xs ↔ x ∈ xs := by
  unfold NewZSet
  rw [mem_foldl_addOne]
  simp

theorem mem_AddAll (s t : ZSet) (x : Zp) :
    x ∈ ZSet.AddAll s t ↔ x ∈ s ∨ x ∈ t := by
  unfold ZSet.AddAll
  exact mem_foldl_addOne t s x

theorem mem_ZSetDiff (a b : ZSet) (x : Zp) :
    x ∈ ZSetDiff a b ↔ x ∈ a ∧ x ∉ b := by
  unfold ZSetDiff
  simp

theorem Zp.normalize_P (zp : Zp) : (Zp.normalize zp).P = zp.P := rfl

/-- C7: for every pair (p, n) with p > 0, NewZp p n yields a value in
[0, p) with the same modulus; negative n wraps via Euclidean modulus, and
in particular NewZp 65537 (-1) has value 65536. -/
theorem C7_newZp_range (p n : Int) (hp : 0 < p) :
    0 ≤ (NewZp p n).Z ∧ (NewZp p n).Z < p ∧ (NewZp p n).P = p ∧
      (NewZp 65537 (-1)).Z = 65536 := by
  refine ⟨Int.emod_nonneg n hp.ne', ?_, rfl, by decide⟩
  exact Int.emod_lt_of_pos n hp

theorem C7_newZp_range_witness :
    0 ≤ (NewZp 65537 (-1)).Z ∧ (NewZp 65537 (-1)).Z < 65537 ∧
      (NewZp 65537 (-1)).P = 65537 ∧ (NewZp 65537 (-1)).Z = 65536 :=
  C7_newZp_range 65537 (-1) (by decide)

theorem Zp.Add_P_ne_of_mem (a : Zp) (vs : List Zp) (v : Zp)
    (hv : v ∈ vs) (hp : v.P ≠ a.P) : Zp.Add a vs = none := by
  induction vs generalizing a with
  | nil => cases hv
  | cons w ws ih =>
      rcases List.mem_cons.mp hv with (rfl | hmem)
      · unfold Zp.Add assertZp
        have : ¬ a.P = v.P := fun h => hp h.symm
        simp [this]
      · unfold Zp.Add assertZp
        split
        · exact ih _ hmem (by simpa [Zp.normalize] using hp)
        · rfl

/-- C8: combining field elements whose moduli differ always fails
(Go panics via assertZp; modelled as none), never silently coercing:
if any operand's modulus differs from the receiver's, Add returns none. -/
theorem C8_add_modulus_mismatch (a : Zp) (vs : List Zp) (v : Zp)
    (hv : v ∈ vs) (hp : v.P ≠ a.P) : Zp.Add a vs = none :=
  Zp.Add_P_ne_of_mem a vs v hv hp

theorem C8_add_modulus_mismatch_witness :
    Zp.Add (NewZp 5 1) [NewZp 65537 9] = none :=
  C8_add_modulus_mismatch (NewZp 5 1) [NewZp 65537 9] (NewZp 65537 9)
    (by decide) (by decide)

/-- C9: for field elements sharing one modulus, Add is commutative and
associative on the resulting value; in Z(5), 1 + 3 = 4 and 1 + 9 = 0. -/
theorem C9_add_comm_assoc (a b c : Zp) (hab : a.P = b.P) (hbc : b.P = c.P) :
    (Zp.Add a [b]).map Zp.Z = (Zp.Add b [a]).map Zp.Z ∧
    ((Zp.Add a [b]).bind (fun x => Zp.Add x [c])).map Zp.Z
      = ((Zp.Add b [c]).bind (fun y => Zp.Add a [y])).map Zp.Z ∧
    (Zp.Add (NewZp 5 1) [NewZp 5 3]).map Zp.Z = some 4 ∧
    (Zp.Add (NewZp 5 1) [NewZp 5 9]).map Zp.Z = some 0 := by
  refine ⟨?_, ?_, by decide, by decide⟩
  · simp [Zp.Add, assertZp, Zp.normalize, hab, Int.add_comm]
  · simp [Zp.Add, assertZp, Zp.normalize, hab, hbc]
    rw [Int.add_assoc]

theorem C9_add_comm_assoc_witness :
    ((Zp.Add (NewZp 5 1) [NewZp 5 3]).map Zp.Z
        = (Zp.Add (NewZp 5 3) [NewZp 5 1]).map Zp.Z) ∧
    (((Zp.Add (NewZp 5 1) [NewZp 5 3]).bind (fun x => Zp.Add x [NewZp 5 9])).map Zp.Z
        = ((Zp.Add (NewZp 5 3) [NewZp 5 9]).bind (fun y => Zp.Add (NewZp 5 1) [y])).map Zp.Z) ∧
    (Zp.Add (NewZp 5 1) [NewZp 5 3]).map Zp.Z = some 4 ∧
    (Zp.Add (NewZp 5 1) [NewZp 5 9]).map Zp.Z = some 0 :=
  C9_add_comm_assoc (NewZp 5 1) (NewZp 5 3) (NewZp 5 9) (by decide) (by decide)

/-! ## recon/peer.go: data model -/

/-- Bitstring: a node's binary path in the prefix tree; the session treats
it as an opaque key. -/
abbrev Bitstring := List Bool

/-- PrefixNode, the external prefix-tree contract consumed by peer.go:
a leaf flag, element count, member elements, sample values, partition key
and children. -/
inductive PrefixNode where
  | mk (isLeaf : Bool) (size : Nat) (elements : List Zp) (svalues : List Zp)
      (key : Bitstring) (children : List PrefixNode)

def PrefixNode.IsLeaf : PrefixNode → Bool
  | .mk l _ _ _ _ _ => l

def PrefixNode.Size : PrefixNode → Nat
  | .mk _ s _ _ _ _ => s

def PrefixNode.Elements : PrefixNode → List Zp
  | .mk _ _ e _ _ _ => e

def PrefixNode.SValues : PrefixNode → List Zp
  | .mk _ _ _ v _ _ => v

def PrefixNode.Key : PrefixNode → Bitstring
  | .mk _ _ _ _ k _ => k

def PrefixNode.Children : PrefixNode → List PrefixNode
  | .mk _ _ _ _ _ c => c

/-- ReconMsg: the tagged union of protocol messages (wire encoding is
external). The Go field Prefix is named pfx here. -/
inductive ReconMsg where
  | Config (contents : List (String × String))
  | ReconRqstFull (pfx : Bitstring) (elements : ZSet)
  | ReconRqstPoly (pfx : Bitstring) (size : Nat) (samples : List Zp)
  | Elements (zset : ZSet)
  | FullElements (zset : ZSet)
  | SyncFail
  | Done
  deriving DecidableEq

/-- requestEntry from peer.go: a pending unit of negotiation. -/
structure requestEntry where
  node : PrefixNode
  key : Bitstring

/-- reconState from peer.go: Bottom (awaiting reply, the Go zero value)
or FlushEnded (flush barrier). -/
inductive reconState where
  | Bottom
  | FlushEnded
  deriving DecidableEq

/-- bottomEntry from peer.go: embeds a nilable *requestEntry plus a state. -/
structure bottomEntry where
  req : Option requestEntry
  state : reconState

/-- reconWithClient from peer.go: the per-connection session state
(the Peer settings and the connection itself are modelled separately). -/
structure reconWithClient where
  requestQ : List requestEntry
  bottomQ : List bottomEntry
  rcvrSet : ZSet
  flushing : Bool

def pushBottom (rwc : reconWithClient) (bottom : bottomEntry) : reconWithClient :=
  { rwc with bottomQ := rwc.bottomQ ++ [bottom] }

def pushRequest (rwc : reconWithClient) (req : requestEntry) : reconWithClient :=
  { rwc with requestQ := rwc.requestQ ++ [req] }

def topBottom (rwc : reconWithClient) : Option bottomEntry :=
  match rwc.bottomQ with
  | [] => none
  | b :: _ => some b

/-- popBottom from peer.go, at the call sites where the popped entry is
discarded: drop the front of the bottom queue. -/
def popBottom (rwc : reconWithClient) : reconWithClient :=
  { rwc with bottomQ := rwc.bottomQ.tail }

/-- popRequest from peer.go: nil (none) on an empty queue, else the front
entry together with the shortened queue. -/
def popRequest (rwc : reconWithClient) : Option (requestEntry × reconWithClient) :=
  match rwc.requestQ with
  | [] => none
  | r :: rest => some (r, { rwc with requestQ := rest })

def isDone (rwc : reconWithClient) : Bool :=
  rwc.requestQ.length = 0 && rwc.bottomQ.length = 0

/-- flushQueue from peer.go: push a FlushEnded barrier and set flushing. -/
def flushQueue (rwc : reconWithClient) : reconWithClient :=
  { pushBottom rwc { req := none, state := reconState.FlushEnded } with flushing := true }

/-! ## recon/peer.go: connection model

readAllMsgs feeds inbound messages through a channel and closes it when
ReadMsg fails; a receive on the closed channel yields a nil message.
Chan models the stream: pending messages still to be delivered, and
willClose meaning the underlying reader hits a read error (or EOF) after
them, after which every receive yields nil (modelled as none). Whether a
non-blocking poll sees the next message is a scheduling fact, modelled by
a Boolean oracle consumed per poll. -/

structure Chan where
  pending : List ReconMsg
  willClose : Bool
  deriving DecidableEq

/-- A non-blocking receive (the select with default): the oracle says
whether the channel case fires; it can deliver a pending message, or nil
once the stream has failed and the channel is closed. -/
def recvPoll (avail : Bool) (c : Chan) : Option (Option ReconMsg) × Chan :=
  if avail then
    match c.pending with
    | m :: rest => (some (some m), { c with pending := rest })
    | [] => if c.willClose then (some none, c) else (none, c)
  else (none, c)

/-- A blocking receive: delivers the next pending message, or nil forever
once the stream has failed; blocks forever (none) on a healthy idle
stream. -/
def recvBlocking (c : Chan) : Option (Option ReconMsg × Chan) :=
  match c.pending with
  | m :: rest => some (some m, { c with pending := rest })
  | [] => if c.willClose then some (none, c) else none

/-- The whole session state: the reconWithClient queues, the inbound
channel, the poll-scheduling oracle, the write-result oracle, and the
trace of messages written so far (message, write succeeded). -/
structure SessionState where
  rwc : reconWithClient
  chan : Chan
  polls : List Bool
  writeOk : List Bool
  sent : List (ReconMsg × Bool)

/-- WriteMsg on the session connection. The oracle decides whether the
write succeeds; peer.go discards WriteMsg's error at every call site
inside the session loop, so the flag only lands in the trace. -/
def doWrite (s : SessionState) (m : ReconMsg) : SessionState :=
  match s.writeOk with
  | [] => { s with sent := s.sent ++ [(m, true)] }
  | b :: rest => { s with writeOk := rest, sent := s.sent ++ [(m, b)] }

def doWrites (s : SessionState) (ms : List ReconMsg) : SessionState :=
  ms.foldl doWrite s

def pollHead : List Bool → Bool × List Bool
  | [] => (false, [])
  | b :: r => (b, r)

/-! ## recon/peer.go: session logic -/

/-- The message chosen by sendRequest: ReconRqstFull for a leaf or a node
smaller than MBar, ReconRqstPoly otherwise. -/
def sendReqMsg (mbar : Nat) (req : requestEntry) : ReconMsg :=
  if req.node.IsLeaf = true ∨ req.node.Size < mbar then
    ReconMsg.ReconRqstFull req.key (NewZSet req.node.Elements)
  else
    ReconMsg.ReconRqstPoly req.key req.node.Size req.node.SValues

/-- sendRequest from peer.go: write the request message (error ignored)
and push a Bottom entry for it. -/
def sendRequest (mbar : Nat) (s : SessionState) (req : requestEntry) : SessionState :=
  let s1 := doWrite s (sendReqMsg mbar req)
  { s1 with rwc := pushBottom s1.rwc { req := some req, state := reconState.Bottom } }

/-- The result of handleReply: the updated queues plus the messages it
wrote, a session-aborting error, or a nil-pointer dereference (the Go
code would panic). -/
inductive HandleResult where
  | ok (rwc : reconWithClient) (out : List ReconMsg)
  | fail (e : String)
  | nilPanic

/-- handleReply from peer.go. A nil message (closed channel after a read
failure) falls into the default branch. SyncFail and FullElements
dereference the request entry. -/
def handleReply (rwc : reconWithClient) (msg : Option ReconMsg)
    (req : Option requestEntry) : HandleResult :=
  match msg with
  | some ReconMsg.SyncFail =>
      match req with
      | none => HandleResult.nilPanic
      | some req =>
          if req.node.IsLeaf then HandleResult.fail "Syncfail received at leaf node"
          else HandleResult.ok
            { rwc with requestQ :=
                rwc.requestQ ++ req.node.Children.map (fun c => requestEntry.mk c c.Key) }
            []
  | some (ReconMsg.Elements z) =>
      HandleResult.ok { rwc with rcvrSet := ZSet.AddAll rwc.rcvrSet z } []
  | some (ReconMsg.FullElements z) =>
      match req with
      | none => HandleResult.nilPanic
      | some req =>
          let lcl := NewZSet req.node.Elements
          let localdiff := ZSetDiff lcl z
          let remotediff := ZSetDiff z lcl
          HandleResult.ok { rwc with rcvrSet := ZSet.AddAll rwc.rcvrSet remotediff }
            [ReconMsg.Elements localdiff]
  | _ => HandleResult.fail "unexpected message"

/-- The outcome of one iteration of the interactWithClient loop. -/
inductive StepOut where
  | cont (s : SessionState)
  | err (e : String) (s : SessionState)
  | stall (s : SessionState)
  | nilDeref (s : SessionState)

/-- Dispatch one received message: apply handleReply, write the messages
it produced (errors ignored), or surface its error. -/
def dispatch (s : SessionState) (msg : Option ReconMsg)
    (req : Option requestEntry) : StepOut :=
  match handleReply s.rwc msg req with
  | HandleResult.ok rwc1 outs => StepOut.cont (doWrites { s with rwc := rwc1 } outs)
  | HandleResult.fail e => StepOut.err e s
  | HandleResult.nilPanic => StepOut.nilDeref s

/-- One iteration of the interactWithClient loop body from peer.go,
assuming isDone is false. mbar is Settings.MBar and maxOut is
Settings.MaxOutstandingReconRequests. -/
def step (mbar maxOut : Nat) (s : SessionState) : StepOut :=
  match topBottom s.rwc with
  | none =>
      match popRequest s.rwc with
      | none => StepOut.nilDeref s
      | some (req, rwc1) => StepOut.cont (sendRequest mbar { s with rwc := rwc1 } req)
  | some bottom =>
      match bottom.state with
      | reconState.FlushEnded =>
          StepOut.cont { s with rwc := { popBottom s.rwc with flushing := false } }
      | reconState.Bottom =>
          let pr := pollHead s.polls
          let s1 : SessionState := { s with polls := pr.2 }
          let rc := recvPoll pr.1 s1.chan
          match rc.1 with
          | some msg =>
              dispatch { s1 with chan := rc.2, rwc := popBottom s1.rwc } msg bottom.req
          | none =>
              if s1.rwc.bottomQ.length > maxOut ∨ s1.rwc.requestQ.length = 0 then
                if s1.rwc.flushing = false then
                  StepOut.cont { s1 with rwc := flushQueue s1.rwc }
                else
                  match recvBlocking s1.chan with
                  | none => StepOut.stall s1
                  | some (msg, chan1) =>
                      dispatch { s1 with chan := chan1, rwc := popBottom s1.rwc } msg bottom.req
              else
                match popRequest s1.rwc with
                | none => StepOut.nilDeref s1
                | some (req, rwc1) =>
                    StepOut.cont (sendRequest mbar { s1 with rwc := rwc1 } req)

/-- The result of running the session loop. finished carries the Recover
event payload (some items exactly when a non-empty accumulated set is
delivered on the recovered-elements channel). -/
inductive RunResult where
  | finished (s : SessionState) (recovered : Option (List Zp))
  | err (e : String) (s : SessionState)
  | stall (s : SessionState)
  | nilDeref (s : SessionState)
  | outOfFuel (s : SessionState)

/-- The interactWithClient loop from peer.go, fueled: while not done run
the loop body, aborting on error; on exit write Done (error ignored) and
emit a Recover event iff the accumulated set is non-empty. -/
def run (mbar maxOut : Nat) : Nat → SessionState → RunResult
  | 0, s => RunResult.outOfFuel s
  | Nat.succ fuel, s =>
      if isDone s.rwc then
        let s1 := doWrite s ReconMsg.Done
        let items := ZSet.Items s1.rwc.rcvrSet
        RunResult.finished s1 (if items.length = 0 then none else some items)
      else
        match step mbar maxOut s with
        | StepOut.cont s1 => run mbar maxOut fuel s1
        | StepOut.err e s1 => RunResult.err e s1
        | StepOut.stall s1 => RunResult.stall s1
        | StepOut.nilDeref s1 => RunResult.nilDeref s1

/-- The initial session state built by interactWithClient: one request
entry for the tree root under the given key, empty bottom queue, empty
accumulator, not flushing, nothing sent. -/
def initState (root : PrefixNode) (key : Bitstring) (chan : Chan)
    (polls writeOk : List Bool) : SessionState :=
  { rwc := { requestQ := [requestEntry.mk root key], bottomQ := [],
             rcvrSet := NewZSet [], flushing := false },
    chan := chan, polls := polls, writeOk := writeOk, sent := [] }

/-- The session state before the root request is enqueued: empty queues,
empty accumulator, nothing sent. -/
def emptySession (chan : Chan) (polls writeOk : List Bool) : SessionState :=
  { rwc := { requestQ := [], bottomQ := [], rcvrSet := NewZSet [], flushing := false },
    chan := chan, polls := polls, writeOk := writeOk, sent := [] }

/-- interactWithClient from peer.go: fails straight away when Root()
fails, otherwise runs the session loop from the initial state. -/
def interactWithClient (mbar maxOut fuel : Nat) (root : Except String PrefixNode)
    (key : Bitstring) (chan : Chan) (polls writeOk : List Bool) : RunResult :=
  match root with
  | Except.error e => RunResult.err e (emptySession chan polls writeOk)
  | Except.ok root => run mbar maxOut fuel (initState root key chan polls writeOk)

/-! ## projections used by the theorems -/

def countBottom (q : List bottomEntry) : Nat :=
  (q.filter (fun e => e.state = reconState.Bottom)).length

def countFlush (q : List bottomEntry) : Nat :=
  (q.filter (fun e => e.state = reconState.FlushEnded)).length

def sentMsgs (s : SessionState) : List ReconMsg := s.sent.map Prod.fst

def contState : StepOut → Option SessionState
  | StepOut.cont s => some s
  | _ => none

/-- Iterate step up to n times, stopping at the first non-cont outcome. -/
def stepN (mbar maxOut : Nat) : Nat → SessionState → StepOut
  | 0, s => StepOut.cont s
  | Nat.succ n, s =>
      match step mbar maxOut s with
      | StepOut.cont s1 => stepN mbar maxOut n s1
      | r => r

/-- Bottom-entry and barrier counts of the state reached by stepN. -/
def bqCounts (r : StepOut) : Option (Nat × Nat) :=
  match r with
  | StepOut.cont s => some (countBottom s.rwc.bottomQ, countFlush s.rwc.bottomQ)
  | _ => none

def runSent : RunResult → List (ReconMsg × Bool)
  | RunResult.finished s _ => s.sent
  | RunResult.err _ s => s.sent
  | RunResult.stall s => s.sent
  | RunResult.nilDeref s => s.sent
  | RunResult.outOfFuel s => s.sent

def runRecovered : RunResult → Option (List Zp)
  | RunResult.finished _ r => r
  | _ => none

def isFinished : RunResult → Bool
  | RunResult.finished _ _ => true
  | _ => false

def runErr : RunResult → Option String
  | RunResult.err e _ => some e
  | _ => none

def isNilDeref : RunResult → Bool
  | RunResult.nilDeref _ => true
  | _ => false

/-! ## basic facts about the session machinery -/

theorem countBottom_append (q r : List bottomEntry) :
    countBottom (q ++ r) = countBottom q + countBottom r := by
  simp [countBottom]

theorem countFlush_append (q r : List bottomEntry) :
    countFlush (q ++ r) = countFlush q + countFlush r := by
  simp [countFlush]

theorem countBottom_le_length (q : List bottomEntry) : countBottom q ≤ q.length :=
  List.length_filter_le _ q

theorem countBottom_cons (b : bottomEntry) (t : List bottomEntry) :
    countBottom (b :: t)
      = (if b.state = reconState.Bottom then 1 else 0) + countBottom t := by
  simp only [countBottom, List.filter_cons]
  split <;> simp_all [Nat.add_comm]

theorem countFlush_cons (b : bottomEntry) (t : List bottomEntry) :
    countFlush (b :: t)
      = (if b.state = reconState.FlushEnded then 1 else 0) + countFlush t := by
  simp only [countFlush, List.filter_cons]
  split <;> simp_all [Nat.add_comm]

theorem sentMsgs_doWrite (s : SessionState) (m : ReconMsg) :
    sentMsgs (doWrite s m) = sentMsgs s ++ [m] := by
  unfold doWrite
  cases s.writeOk <;> simp [sentMsgs]

theorem rwc_doWrite (s : SessionState) (m : ReconMsg) :
    (doWrite s m).rwc = s.rwc := by
  unfold doWrite
  cases s.writeOk <;> rfl

theorem chan_doWrite (s : SessionState) (m : ReconMsg) :
    (doWrite s m).chan = s.chan := by
  unfold doWrite
  cases s.writeOk <;> rfl

theorem polls_doWrite (s : SessionState) (m : ReconMsg) :
    (doWrite s m).polls = s.polls := by
  unfold doWrite
  cases s.writeOk <;> rfl

theorem sentMsgs_doWrites (s : SessionState) (ms : List ReconMsg) :
    sentMsgs (doWrites s ms) = sentMsgs s ++ ms := by
  induction ms generalizing s with
  | nil => simp [doWrites]
  | cons m rest ih =>
      show sentMsgs (doWrites (doWrite s m) rest) = _
      rw [ih, sentMsgs_doWrite, List.append_assoc]
      rfl

theorem rwc_doWrites (s : SessionState) (ms : List ReconMsg) :
    (doWrites s ms).rwc = s.rwc := by
  induction ms generalizing s with
  | nil => rfl
  | cons m rest ih =>
      show (doWrites (doWrite s m) rest).rwc = _
      rw [ih, rwc_doWrite]

theorem chan_doWrites (s : SessionState) (ms : List ReconMsg) :
    (doWrites s ms).chan = s.chan := by
  induction ms generalizing s with
  | nil => rfl
  | cons m rest ih =>
      show (doWrites (doWrite s m) rest).chan = _
      rw [ih, chan_doWrite]

theorem polls_doWrites (s : SessionState) (ms : List ReconMsg) :
    (doWrites s ms).polls = s.polls := by
  induction ms generalizing s with
  | nil => rfl
  | cons m rest ih =>
      show (doWrites (doWrite s m) rest).polls = _
      rw [ih, polls_doWrite]

theorem sendReqMsg_ne_done (mbar : Nat) (req : requestEntry) :
    sendReqMsg mbar req ≠ ReconMsg.Done := by
  unfold sendReqMsg
  split <;> intro h <;> cases h

theorem rwc_sendRequest (mbar : Nat) (s : SessionState) (req : requestEntry) :
    (sendRequest mbar s req).rwc
      = pushBottom s.rwc { req := some req, state := reconState.Bottom } := by
  have h : (sendRequest mbar s req).rwc
      = pushBottom (doWrite s (sendReqMsg mbar req)).rwc
          { req := some req, state := reconState.Bottom } := rfl
  rw [h, rwc_doWrite]

theorem sentMsgs_sendRequest (mbar : Nat) (s : SessionState) (req : requestEntry) :
    sentMsgs (sendRequest mbar s req) = sentMsgs s ++ [sendReqMsg mbar req] := by
  have h : sentMsgs (sendRequest mbar s req)
      = sentMsgs (doWrite s (sendReqMsg mbar req)) := rfl
  rw [h, sentMsgs_doWrite]

theorem chan_sendRequest (mbar : Nat) (s : SessionState) (req : requestEntry) :
    (sendRequest mbar s req).chan = s.chan := by
  have h : (sendRequest mbar s req).chan
      = (doWrite s (sendReqMsg mbar req)).chan := rfl
  rw [h, chan_doWrite]

theorem polls_sendRequest (mbar : Nat) (s : SessionState) (req : requestEntry) :
    (sendRequest mbar s req).polls = s.polls := by
  have h : (sendRequest mbar s req).polls
      = (doWrite s (sendReqMsg mbar req)).polls := rfl
  rw [h, polls_doWrite]

theorem handleReply_ok_bottomQ (rwc : reconWithClient) (msg : Option ReconMsg)
    (req : Option requestEntry) (rwc1 : reconWithClient) (outs : List ReconMsg)
    (h : handleReply rwc msg req = HandleResult.ok rwc1 outs) :
    rwc1.bottomQ = rwc.bottomQ ∧ rwc1.flushing = rwc.flushing := by
  rcases msg with - | m
  · exact absurd h (by simp [handleReply])
  · cases m with
    | Config contents => exact absurd h (by simp [handleReply])
    | ReconRqstFull a b => exact absurd h (by simp [handleReply])
    | ReconRqstPoly a b c => exact absurd h (by simp [handleReply])
    | Done => exact absurd h (by simp [handleReply])
    | Elements z =>
        simp only [handleReply, HandleResult.ok.injEq] at h
        rw [← h.1]
        exact ⟨rfl, rfl⟩
    | SyncFail =>
        rcases req with - | r
        · exact absurd h (by simp [handleReply])
        · by_cases hl : r.node.IsLeaf = true
          · exact absurd h (by simp [handleReply, hl])
          · simp only [handleReply, if_neg hl, HandleResult.ok.injEq] at h
            rw [← h.1]
            exact ⟨rfl, rfl⟩
    | FullElements z =>
        rcases req with - | r
        · exact absurd h (by simp [handleReply])
        · simp only [handleReply, HandleResult.ok.injEq] at h
          rw [← h.1]
          exact ⟨rfl, rfl⟩

theorem handleReply_ok_no_done (rwc : reconWithClient) (msg : Option ReconMsg)
    (req : Option requestEntry) (rwc1 : reconWithClient) (outs : List ReconMsg)
    (h : handleReply rwc msg req = HandleResult.ok rwc1 outs) :
    ReconMsg.Done ∉ outs := by
  rcases msg with - | m
  · exact absurd h (by simp [handleReply])
  · cases m with
    | Config contents => exact absurd h (by simp [handleReply])
    | ReconRqstFull a b => exact absurd h (by simp [handleReply])
    | ReconRqstPoly a b c => exact absurd h (by simp [handleReply])
    | Done => exact absurd h (by simp [handleReply])
    | Elements z =>
        simp only [handleReply, HandleResult.ok.injEq] at h
        rw [← h.2]
        simp
    | SyncFail =>
        rcases req with - | r
        · exact absurd h (by simp [handleReply])
        · by_cases hl : r.node.IsLeaf = true
          · exact absurd h (by simp [handleReply, hl])
          · simp only [handleReply, if_neg hl, HandleResult.ok.injEq] at h
            rw [← h.2]
            simp
    | FullElements z =>
        rcases req with - | r
        · exact absurd h (by simp [handleReply])
        · simp only [handleReply, HandleResult.ok.injEq] at h
          rw [← h.2]
          simp

theorem handleReply_some_req_no_panic (rwc : reconWithClient) (msg : Option ReconMsg)
    (req : requestEntry) : handleReply rwc msg (some req) ≠ HandleResult.nilPanic := by
  rcases msg with - | m
  · simp [handleReply]
  · cases m with
    | Config contents => simp [handleReply]
    | ReconRqstFull a b => simp [handleReply]
    | ReconRqstPoly a b c => simp [handleReply]
    | Done => simp [handleReply]
    | Elements z => simp [handleReply]
    | SyncFail =>
        simp only [handleReply]
        split <;> simp
    | FullElements z => simp [handleReply]

/-! ## concrete fixtures used by witnesses and counterexamples -/

/-- A leaf node holding elements 1 and 2 of Z(7). -/
def leafNode : PrefixNode := PrefixNode.mk true 2 [NewZp 7 1, NewZp 7 2] [] [] []

def leafReq : requestEntry := requestEntry.mk leafNode []

/-- A healthy inbound stream delivering one FullElements message with
elements 1 and 3 of Z(7). -/
def chanFull : Chan :=
  { pending := [ReconMsg.FullElements [NewZp 7 1, NewZp 7 3]], willClose := false }

/-- A healthy inbound stream delivering one SyncFail message. -/
def chanSync : Chan := { pending := [ReconMsg.SyncFail], willClose := false }

def leafChild1 : PrefixNode := PrefixNode.mk true 1 [NewZp 7 1] [] [false, false] []

def leafChild2 : PrefixNode := PrefixNode.mk true 1 [NewZp 7 2] [] [false, true] []

def leafChild3 : PrefixNode := PrefixNode.mk true 1 [NewZp 7 3] [] [true, false] []

/-- An internal root with three leaf children. -/
def innerRoot : PrefixNode :=
  PrefixNode.mk false 3 [] [NewZp 7 5] [] [leafChild1, leafChild2, leafChild3]

/-- Session start for the C1 counterexample: SyncFail on the root request
is seen by the first poll, later polls see nothing. -/
def c1CexStart : SessionState := initState innerRoot [] chanSync [true, false, false] []

/-- C5: for every request entry, sendRequest sends ReconRqstFull with the
entry's key and all elements at the node when the node is a leaf or its
size is below MBar, and otherwise ReconRqstPoly with the key, size and
sample values; the sent request is appended to the trace and a Bottom
entry is pushed. -/
theorem C5_send_policy (mbar : Nat) (s : SessionState) (req : requestEntry) :
    (req.node.IsLeaf = true ∨ req.node.Size < mbar →
       sendReqMsg mbar req = ReconMsg.ReconRqstFull req.key (NewZSet req.node.Elements)) ∧
    (req.node.IsLeaf = false → ¬ req.node.Size < mbar →
       sendReqMsg mbar req = ReconMsg.ReconRqstPoly req.key req.node.Size req.node.SValues) ∧
    (sendRequest mbar s req).rwc.bottomQ
        = s.rwc.bottomQ ++ [{ req := some req, state := reconState.Bottom }] ∧
    sentMsgs (sendRequest mbar s req) = sentMsgs s ++ [sendReqMsg mbar req] := by
  refine ⟨?_, ?_, ?_, sentMsgs_sendRequest mbar s req⟩
  · intro h
    rw [sendReqMsg, if_pos h]
  · intro h1 h2
    rw [sendReqMsg, if_neg]
    rintro (hc | hc)
    · rw [h1] at hc
      cases hc
    · exact h2 hc
  · rw [rwc_sendRequest]
    rfl

theorem C5_send_policy_witness :
    (leafReq.node.IsLeaf = true ∨ leafReq.node.Size < 2 →
       sendReqMsg 2 leafReq = ReconMsg.ReconRqstFull leafReq.key (NewZSet leafReq.node.Elements)) ∧
    (leafReq.node.IsLeaf = false → ¬ leafReq.node.Size < 2 →
       sendReqMsg 2 leafReq
         = ReconMsg.ReconRqstPoly leafReq.key leafReq.node.Size leafReq.node.SValues) ∧
    (sendRequest 2 (emptySession chanFull [] []) leafReq).rwc.bottomQ
        = (emptySession chanFull [] []).rwc.bottomQ
            ++ [{ req := some leafReq, state := reconState.Bottom }] ∧
    sentMsgs (sendRequest 2 (emptySession chanFull [] []) leafReq)
        = sentMsgs (emptySession chanFull [] []) ++ [sendReqMsg 2 leafReq] :=
  C5_send_policy 2 (emptySession chanFull [] []) leafReq

/-- C2: handleReply on a FullElements reply answers with an Elements
message holding exactly the locally present, remotely absent elements and
adds to the accumulator exactly the remotely present, locally absent
elements, touching no queue; the concrete leaf session recovers exactly
the remote-only element 3 of Z(7) in one Recover event and replies with
exactly the local-only element 2. -/
theorem C2_full_elements (rwc : reconWithClient) (z : ZSet) (req : requestEntry) (x : Zp) :
    (∃ rwc1 out,
      handleReply rwc (some (ReconMsg.FullElements z)) (some req)
          = HandleResult.ok rwc1 [ReconMsg.Elements out] ∧
      (x ∈ out ↔ x ∈ req.node.Elements ∧ x ∉ z) ∧
      (x ∈ rwc1.rcvrSet ↔ x ∈ rwc.rcvrSet ∨ (x ∈ z ∧ x ∉ req.node.Elements)) ∧
      rwc1.requestQ = rwc.requestQ ∧ rwc1.bottomQ = rwc.bottomQ) ∧
    runRecovered (run 5 5 5 (initState leafNode [] chanFull [true] [])) = some [NewZp 7 3] ∧
    (runSent (run 5 5 5 (initState leafNode [] chanFull [true] []))).map Prod.fst
        = [ReconMsg.ReconRqstFull [] [NewZp 7 1, NewZp 7 2],
           ReconMsg.Elements [NewZp 7 2], ReconMsg.Done] := by
  refine ⟨⟨_, _, rfl, ?_, ?_, rfl, rfl⟩, by decide, by decide⟩
  · simp [mem_ZSetDiff, mem_NewZSet]
  · simp [mem_AddAll, mem_ZSetDiff, mem_NewZSet]

/-- C3: a SyncFail reply for an internal node queues exactly one new
request entry per child, each keyed by that child's own key, and returns
no error; a SyncFail for a leaf yields an error, and the concrete leaf
session aborts having queued nothing and sent nothing after its one
request. -/
theorem C3_syncfail (rwc : reconWithClient) (req : requestEntry) :
    (req.node.IsLeaf = false →
      handleReply rwc (some ReconMsg.SyncFail) (some req)
        = HandleResult.ok
            { rwc with requestQ :=
                rwc.requestQ ++ req.node.Children.map (fun c => requestEntry.mk c c.Key) }
            []) ∧
    (rwc.requestQ ++ req.node.Children.map (fun c => requestEntry.mk c c.Key)).length
        = rwc.requestQ.length + req.node.Children.length ∧
    (req.node.Children.map (fun c => requestEntry.mk c c.Key)).map requestEntry.key
        = req.node.Children.map PrefixNode.Key ∧
    (req.node.Children.map (fun c => requestEntry.mk c c.Key)).map requestEntry.node
        = req.node.Children ∧
    (req.node.IsLeaf = true →
      handleReply rwc (some ReconMsg.SyncFail) (some req)
        = HandleResult.fail "Syncfail received at leaf node") ∧
    runErr (run 5 5 5 (initState leafNode [] chanSync [true] []))
        = some "Syncfail received at leaf node" ∧
    (runSent (run 5 5 5 (initState leafNode [] chanSync [true] []))).map Prod.fst
        = [ReconMsg.ReconRqstFull [] [NewZp 7 1, NewZp 7 2]] := by
  refine ⟨?_, by simp, by simp [List.map_map],
    by simp [List.map_map, Function.comp_def], ?_, by decide, by decide⟩
  · intro h
    simp [handleReply, h]
  · intro h
    simp [handleReply, h]

theorem C3_syncfail_witness :
    (leafReq.node.IsLeaf = false →
      handleReply { requestQ := [], bottomQ := [], rcvrSet := [], flushing := false }
          (some ReconMsg.SyncFail) (some leafReq)
        = HandleResult.ok
            { requestQ := [] ++ leafReq.node.Children.map (fun c => requestEntry.mk c c.Key),
              bottomQ := [], rcvrSet := [], flushing := false }
            []) ∧
    ([] ++ leafReq.node.Children.map (fun c => requestEntry.mk c c.Key)).length
        = List.length ([] : List requestEntry) + leafReq.node.Children.length ∧
    (leafReq.node.Children.map (fun c => requestEntry.mk c c.Key)).map requestEntry.key
        = leafReq.node.Children.map PrefixNode.Key ∧
    (leafReq.node.Children.map (fun c => requestEntry.mk c c.Key)).map requestEntry.node
        = leafReq.node.Children ∧
    (leafReq.node.IsLeaf = true →
      handleReply { requestQ := [], bottomQ := [], rcvrSet := [], flushing := false }
          (some ReconMsg.SyncFail) (some leafReq)
        = HandleResult.fail "Syncfail received at leaf node") ∧
    runErr (run 5 5 5 (initState leafNode [] chanSync [true] []))
        = some "Syncfail received at leaf node" ∧
    (runSent (run 5 5 5 (initState leafNode [] chanSync [true] []))).map Prod.fst
        = [ReconMsg.ReconRqstFull [] [NewZp 7 1, NewZp 7 2]] :=
  C3_syncfail { requestQ := [], bottomQ := [], rcvrSet := [], flushing := false } leafReq

/-- C1 counterexample: with MaxOutstandingReconRequests = 1 (and MBar = 1),
run the loop four iterations: send the root request, receive SyncFail and
queue the three children, send the first child request, then — one entry
in flight, one poll seeing nothing, two requests still pending — pipeline
the second child request. The bottom queue now holds 2 > 1 in-flight
Bottom entries while the barrier count is 0 at every state reached, so no
FlushEnded barrier was ever pushed. -/
theorem C1_flow_control_cex :
    bqCounts (stepN 1 1 0 c1CexStart) = some (0, 0) ∧
    bqCounts (stepN 1 1 1 c1CexStart) = some (1, 0) ∧
    bqCounts (stepN 1 1 2 c1CexStart) = some (0, 0) ∧
    bqCounts (stepN 1 1 3 c1CexStart) = some (1, 0) ∧
    bqCounts (stepN 1 1 4 c1CexStart) = some (2, 0) := by
  decide

/-- C4 counterexample: the session's first WriteMsg (the ReconRqstFull
request) fails, yet the session sends two further messages (Elements and
Done) and finishes without error: peer.go discards WriteMsg's error at
every call site inside the loop. -/
theorem C4_transport_cex :
    runSent (run 5 5 5 (initState leafNode [] chanFull [true] [false]))
        = [(ReconMsg.ReconRqstFull [] [NewZp 7 1, NewZp 7 2], false),
           (ReconMsg.Elements [NewZp 7 2], true), (ReconMsg.Done, true)] ∧
    isFinished (run 5 5 5 (initState leafNode [] chanFull [true] [false])) = true := by
  decide

/-- The flow-control invariant of the session loop: at most one flush
barrier is ever in the bottom queue, the flushing flag mirrors the
barrier's presence, and at most maxOut + 1 Bottom entries are in flight. -/
def FlowInv (k : Nat) (s : SessionState) : Prop :=
  countFlush s.rwc.bottomQ ≤ 1 ∧
  (s.rwc.flushing = true ↔ countFlush s.rwc.bottomQ = 1) ∧
  countBottom s.rwc.bottomQ ≤ k + 1

theorem popRequest_some (rwc : reconWithClient) (req : requestEntry)
    (rwc1 : reconWithClient) (h : popRequest rwc = some (req, rwc1)) :
    rwc.requestQ = req :: rwc1.requestQ ∧ rwc1.bottomQ = rwc.bottomQ ∧
    rwc1.rcvrSet = rwc.rcvrSet ∧ rwc1.flushing = rwc.flushing := by
  unfold popRequest at h
  cases hq : rwc.requestQ with
  | nil => rw [hq] at h; cases h
  | cons r rest =>
      rw [hq] at h
      simp only [Option.some.injEq, Prod.mk.injEq] at h
      obtain ⟨rfl, rfl⟩ := h
      exact ⟨rfl, rfl, rfl, rfl⟩

theorem topBottom_none (rwc : reconWithClient) (h : topBottom rwc = none) :
    rwc.bottomQ = [] := by
  unfold topBottom at h
  cases hq : rwc.bottomQ with
  | nil => rfl
  | cons b t => rw [hq] at h; cases h

theorem topBottom_some (rwc : reconWithClient) (b : bottomEntry)
    (h : topBottom rwc = some b) : rwc.bottomQ = b :: rwc.bottomQ.tail := by
  unfold topBottom at h
  cases hq : rwc.bottomQ with
  | nil => rw [hq] at h; cases h
  | cons c t =>
      rw [hq] at h
      simp only [Option.some.injEq] at h
      subst h
      simp [hq]

theorem dispatch_cont_rwc (s : SessionState) (msg : Option ReconMsg)
    (req : Option requestEntry) (s1 : SessionState)
    (h : dispatch s msg req = StepOut.cont s1) :
    s1.rwc.bottomQ = s.rwc.bottomQ ∧ s1.rwc.flushing = s.rwc.flushing ∧
    s1.polls = s.polls ∧ s1.chan = s.chan := by
  unfold dispatch at h
  cases hd : handleReply s.rwc msg req with
  | ok rwc1 outs =>
      rw [hd] at h
      cases h
      obtain ⟨hb, hf⟩ := handleReply_ok_bottomQ _ _ _ _ _ hd
      refine ⟨?_, ?_, ?_, ?_⟩
      · rw [rwc_doWrites]
        exact hb
      · rw [rwc_doWrites]
        exact hf
      · rw [polls_doWrites]
      · rw [chan_doWrites]
  | fail e => rw [hd] at h; cases h
  | nilPanic => rw [hd] at h; cases h

theorem step_preserves_Inv (mbar k : Nat) (s s1 : SessionState)
    (hInv : FlowInv k s) (h : step mbar k s = StepOut.cont s1) : FlowInv k s1 := by
  obtain ⟨hF, hIff, hB⟩ := hInv
  unfold step at h
  cases htb : topBottom s.rwc with
  | none =>
      rw [htb] at h
      have hq : s.rwc.bottomQ = [] := topBottom_none _ htb
      cases hpr : popRequest s.rwc with
      | none => rw [hpr] at h; cases h
      | some p =>
          obtain ⟨req, rwc1⟩ := p
          rw [hpr] at h
          obtain ⟨-, hbq, -, hfl⟩ := popRequest_some _ _ _ hpr
          cases h
          constructor
          · show countFlush (sendRequest mbar { s with rwc := rwc1 } req).rwc.bottomQ ≤ 1
            rw [rwc_sendRequest]
            show countFlush (rwc1.bottomQ ++ [_]) ≤ 1
            rw [countFlush_append, hbq, hq]
            simp [countFlush]
          constructor
          · show (sendRequest mbar { s with rwc := rwc1 } req).rwc.flushing = true ↔ _
            rw [rwc_sendRequest]
            show rwc1.flushing = true ↔ countFlush (rwc1.bottomQ ++ [_]) = 1
            rw [countFlush_append, hbq, hq, hfl]
            rw [hq] at hIff
            simp [countFlush] at hIff ⊢
            simpa using hIff
          · show countBottom (sendRequest mbar { s with rwc := rwc1 } req).rwc.bottomQ ≤ k + 1
            rw [rwc_sendRequest]
            show countBottom (rwc1.bottomQ ++ [_]) ≤ k + 1
            rw [countBottom_append, hbq, hq]
            simp [countBottom]
  | some bottom =>
      rw [htb] at h
      have hq : s.rwc.bottomQ = bottom :: s.rwc.bottomQ.tail := topBottom_some _ _ htb
      dsimp only at h
      cases hst : bottom.state with
      | FlushEnded =>
          rw [hst] at h
          cases h
          rw [hq, countFlush_cons, hst] at hF
          rw [hq, countBottom_cons, hst] at hB
          simp at hF hB
          refine ⟨?_, ?_, ?_⟩
          · show countFlush (popBottom s.rwc).bottomQ ≤ 1
            simp [popBottom, hF]
          · show (false = true) ↔ countFlush (popBottom s.rwc).bottomQ = 1
            simp [popBottom, hF]
          · show countBottom (popBottom s.rwc).bottomQ ≤ k + 1
            simpa [popBottom] using hB
      | Bottom =>
          rw [hst] at h
          dsimp only at h
          have hFt : countFlush s.rwc.bottomQ = countFlush s.rwc.bottomQ.tail := by
            conv_lhs => rw [hq]
            rw [countFlush_cons, hst]
            simp
          have hBt : countBottom s.rwc.bottomQ = 1 + countBottom s.rwc.bottomQ.tail := by
            conv_lhs => rw [hq]
            rw [countBottom_cons, hst]
            simp
          split at h
          · -- non-blocking poll delivered a message: pop and dispatch
            obtain ⟨hb1, hf1, -, -⟩ := dispatch_cont_rwc _ _ _ _ h
            simp only [popBottom] at hb1 hf1
            refine ⟨?_, ?_, ?_⟩
            · rw [hb1, ← hFt]
              exact hF
            · rw [hf1, hb1, ← hFt]
              exact hIff
            · rw [hb1]
              omega
          · -- no message available
            split at h
            · -- over the window or out of requests
              split at h
              · -- not yet flushing: push the barrier
                rename_i hcond hfl
                cases h
                have hcf : countFlush s.rwc.bottomQ = 0 := by
                  have hne : countFlush s.rwc.bottomQ ≠ 1 := by
                    intro hc
                    rw [hIff.mpr hc] at hfl
                    cases hfl
                  omega
                have hfb : (flushQueue s.rwc).bottomQ
                    = s.rwc.bottomQ ++ [{ req := none, state := reconState.FlushEnded }] := rfl
                have hc1 : countFlush [{ req := none, state := reconState.FlushEnded }] = 1 := rfl
                have hc0 : countBottom [{ req := none, state := reconState.FlushEnded }] = 0 := rfl
                refine ⟨?_, ?_, ?_⟩
                · show countFlush (flushQueue s.rwc).bottomQ ≤ 1
                  rw [hfb, countFlush_append, hcf, hc1]
                · show (flushQueue s.rwc).flushing = true
                      ↔ countFlush (flushQueue s.rwc).bottomQ = 1
                  rw [show (flushQueue s.rwc).flushing = true from rfl, hfb,
                    countFlush_append, hcf, hc1]
                  simp
                · show countBottom (flushQueue s.rwc).bottomQ ≤ k + 1
                  rw [hfb, countBottom_append, hc0]
                  omega
              · -- already flushing: blocking read then dispatch
                rename_i hcond hfl
                cases hrb : recvBlocking s.chan with
                | none => rw [hrb] at h; cases h
                | some p =>
                    obtain ⟨msg, chan1⟩ := p
                    rw [hrb] at h
                    dsimp only at h
                    obtain ⟨hb1, hf1, -, -⟩ := dispatch_cont_rwc _ _ _ _ h
                    simp only [popBottom] at hb1 hf1
                    refine ⟨?_, ?_, ?_⟩
                    · rw [hb1, ← hFt]
                      exact hF
                    · rw [hf1, hb1, ← hFt]
                      exact hIff
                    · rw [hb1]
                      omega
            · -- window open and requests pending: pipeline another send
              rename_i hcond
              cases hpr : popRequest s.rwc with
              | none => rw [hpr] at h; cases h
              | some p =>
                  obtain ⟨req, rwc1⟩ := p
                  rw [hpr] at h
                  dsimp only at h
                  cases h
                  obtain ⟨-, hbq, -, hfl⟩ := popRequest_some _ _ _ hpr
                  have hlen : s.rwc.bottomQ.length ≤ k := by
                    rcases Nat.lt_or_ge k s.rwc.bottomQ.length with hlt | hge
                    · exact absurd (Or.inl hlt) hcond
                    · exact hge
                  have hs1 : countFlush [{ req := some req, state := reconState.Bottom }] = 0 := rfl
                  have hs2 : countBottom [{ req := some req, state := reconState.Bottom }] = 1 := rfl
                  refine ⟨?_, ?_, ?_⟩
                  · show countFlush (sendRequest mbar _ req).rwc.bottomQ ≤ 1
                    rw [rwc_sendRequest]
                    show countFlush (rwc1.bottomQ ++ [_]) ≤ 1
                    rw [countFlush_append, hbq, hs1]
                    simpa using hF
                  · show (sendRequest mbar _ req).rwc.flushing = true
                        ↔ countFlush (sendRequest mbar _ req).rwc.bottomQ = 1
                    rw [rwc_sendRequest]
                    show rwc1.flushing = true ↔ countFlush (rwc1.bottomQ ++ [_]) = 1
                    rw [countFlush_append, hbq, hfl, hs1]
                    simpa using hIff
                  · show countBottom (sendRequest mbar _ req).rwc.bottomQ ≤ k + 1
                    rw [rwc_sendRequest]
                    show countBottom (rwc1.bottomQ ++ [_]) ≤ k + 1
                    rw [countBottom_append, hbq, hs2]
                    have hcb : countBottom s.rwc.bottomQ ≤ k :=
                      le_trans (countBottom_le_length _) hlen
                    omega

theorem popRequest_none (rwc : reconWithClient) (h : popRequest rwc = none) :
    rwc.requestQ = [] := by
  unfold popRequest at h
  cases hq : rwc.requestQ with
  | nil => rfl
  | cons r rest => rw [hq] at h; cases h

/-- Well-formedness of the bottom queue: every in-flight Bottom entry
carries a request (sendRequest pushes some, flushQueue a barrier). -/
def WB (s : SessionState) : Prop :=
  ∀ e ∈ s.rwc.bottomQ, e.state = reconState.Bottom → e.req ≠ none

theorem dispatch_no_nilDeref (s : SessionState) (msg : Option ReconMsg)
    (req : Option requestEntry) (t : SessionState)
    (hp : handleReply s.rwc msg req ≠ HandleResult.nilPanic) :
    dispatch s msg req ≠ StepOut.nilDeref t := by
  unfold dispatch
  cases hd : handleReply s.rwc msg req with
  | ok rwc1 outs => intro h; cases h
  | fail e => intro h; cases h
  | nilPanic => exact absurd hd hp

theorem step_no_nilDeref (mbar k : Nat) (s : SessionState)
    (hWB : WB s) (hnd : isDone s.rwc = false) :
    (∀ t, step mbar k s ≠ StepOut.nilDeref t) ∧
    (∀ s1, step mbar k s = StepOut.cont s1 → WB s1) := by
  unfold step
  cases htb : topBottom s.rwc with
  | none =>
      have hq : s.rwc.bottomQ = [] := topBottom_none _ htb
      have hrq : s.rwc.requestQ ≠ [] := by
        intro hr
        rw [isDone, hr, hq] at hnd
        cases hnd
      cases hpr : popRequest s.rwc with
      | none => exact absurd (popRequest_none _ hpr) hrq
      | some p =>
          obtain ⟨req, rwc1⟩ := p
          obtain ⟨-, hbq, -, -⟩ := popRequest_some _ _ _ hpr
          constructor
          · intro t h
            cases h
          · intro s1 h
            cases h
            intro e he hst
            rw [rwc_sendRequest] at he
            rcases List.mem_append.mp he with hin | hin
            · exact hWB e (by rw [hq] at hbq; rw [hbq] at hin; cases hin) hst
            · rcases List.mem_singleton.mp hin with rfl
              intro hc
              cases hc
  | some bottom =>
      have hq : s.rwc.bottomQ = bottom :: s.rwc.bottomQ.tail := topBottom_some _ _ htb
      have htail : ∀ e ∈ s.rwc.bottomQ.tail, e.state = reconState.Bottom → e.req ≠ none := by
        intro e he hst
        exact hWB e (by rw [hq]; exact List.mem_cons_of_mem _ he) hst
      cases hst : bottom.state with
      | FlushEnded =>
          dsimp only
          rw [hst]
          dsimp only
          constructor
          · intro t h
            cases h
          · intro s1 h
            cases h
            intro e he hste
            exact htail e he hste
      | Bottom =>
          have hreq : bottom.req ≠ none :=
            hWB bottom (by rw [hq]; exact List.mem_cons_self _ _) hst
          obtain ⟨r, hr⟩ := Option.ne_none_iff_exists'.mp hreq
          dsimp only
          rw [hst]
          dsimp only
          split
          · -- poll delivered: dispatch
            rename_i msg hrc
            constructor
            · intro t
              apply dispatch_no_nilDeref
              rw [hr]
              exact handleReply_some_req_no_panic _ _ _
            · intro s1 h
              obtain ⟨hb1, -, -, -⟩ := dispatch_cont_rwc _ _ _ _ h
              simp only [popBottom] at hb1
              intro e he hste
              rw [hb1] at he
              exact htail e he hste
          · split
            · split
              · -- push the barrier
                constructor
                · intro t h
                  cases h
                · intro s1 h
                  cases h
                  intro e he hste
                  have hfb : (flushQueue s.rwc).bottomQ
                      = s.rwc.bottomQ ++ [{ req := none, state := reconState.FlushEnded }] := rfl
                  rw [hfb] at he
                  rcases List.mem_append.mp he with hin | hin
                  · exact hWB e hin hste
                  · rcases List.mem_singleton.mp hin with rfl
                    cases hste
              · -- blocking read then dispatch
                cases hrb : recvBlocking s.chan with
                | none =>
                    constructor
                    · intro t h
                      cases h
                    · intro s1 h
                      cases h
                | some p =>
                    obtain ⟨msg, chan1⟩ := p
                    dsimp only
                    constructor
                    · intro t
                      apply dispatch_no_nilDeref
                      rw [hr]
                      exact handleReply_some_req_no_panic _ _ _
                    · intro s1 h
                      obtain ⟨hb1, -, -, -⟩ := dispatch_cont_rwc _ _ _ _ h
                      simp only [popBottom] at hb1
                      intro e he hste
                      rw [hb1] at he
                      exact htail e he hste
            · -- pipeline another request
              rename_i hcond
              have hrq : s.rwc.requestQ ≠ [] := by
                intro hr2
                exact hcond (Or.inr (by rw [hr2]; rfl))
              cases hpr : popRequest s.rwc with
              | none => exact absurd (popRequest_none _ hpr) hrq
              | some p =>
                  obtain ⟨req, rwc1⟩ := p
                  obtain ⟨-, hbq, -, -⟩ := popRequest_some _ _ _ hpr
                  dsimp only
                  constructor
                  · intro t h
                    cases h
                  · intro s1 h
                    cases h
                    intro e he hste
                    rw [rwc_sendRequest] at he
                    rcases List.mem_append.mp he with hin | hin
                    · exact hWB e (by rw [← hbq]; exact hin) hste
                    · rcases List.mem_singleton.mp hin with rfl
                      intro hc
                      cases hc

theorem run_no_nilDeref (mbar k fuel : Nat) (s : SessionState) (hWB : WB s) :
    isNilDeref (run mbar k fuel s) = false := by
  induction fuel generalizing s with
  | zero => rfl
  | succ n ih =>
      show isNilDeref (run mbar k (n + 1) s) = false
      rw [run]
      by_cases hd : isDone s.rwc
      · rw [if_pos hd]
        rfl
      · rw [if_neg hd]
        have hdf : isDone s.rwc = false := by
          cases hdd : isDone s.rwc
          · rfl
          · exact absurd hdd hd
        obtain ⟨hnil, hpres⟩ := step_no_nilDeref mbar k s hWB hdf
        cases hst : step mbar k s with
        | cont s1 => exact ih s1 (hpres s1 hst)
        | err e s1 => rfl
        | stall s1 => rfl
        | nilDeref s1 => exact absurd hst (hnil s1)

theorem dispatch_noDone (s : SessionState) (msg : Option ReconMsg)
    (req : Option requestEntry) (s1 : SessionState) (e : String)
    (hnd : ReconMsg.Done ∉ sentMsgs s) :
    (dispatch s msg req = StepOut.cont s1 → ReconMsg.Done ∉ sentMsgs s1) ∧
    (dispatch s msg req = StepOut.err e s1 → ReconMsg.Done ∉ sentMsgs s1) := by
  unfold dispatch
  cases hd : handleReply s.rwc msg req with
  | ok rwc1 outs =>
      constructor
      · intro h
        cases h
        rw [show sentMsgs (doWrites { s with rwc := rwc1 } outs)
            = sentMsgs { s with rwc := rwc1 } ++ outs from sentMsgs_doWrites _ _]
        intro hmem
        rcases List.mem_append.mp hmem with hin | hin
        · exact hnd hin
        · exact handleReply_ok_no_done _ _ _ _ _ hd hin
      · intro h
        cases h
  | fail e2 =>
      constructor
      · intro h
        cases h
      · intro h
        cases h
        exact hnd
  | nilPanic =>
      constructor
      · intro h
        cases h
      · intro h
        cases h

theorem step_noDone (mbar k : Nat) (s s1 : SessionState) (e : String)
    (hnd : ReconMsg.Done ∉ sentMsgs s) :
    (step mbar k s = StepOut.cont s1 → ReconMsg.Done ∉ sentMsgs s1) ∧
    (step mbar k s = StepOut.err e s1 → ReconMsg.Done ∉ sentMsgs s1) := by
  have hsend : ∀ (t : SessionState) (req : requestEntry),
      ReconMsg.Done ∉ sentMsgs t → ReconMsg.Done ∉ sentMsgs (sendRequest mbar t req) := by
    intro t req ht
    rw [sentMsgs_sendRequest]
    intro hmem
    rcases List.mem_append.mp hmem with hin | hin
    · exact ht hin
    · rcases List.mem_singleton.mp hin with heq
      exact sendReqMsg_ne_done mbar req heq.symm
  unfold step
  cases htb : topBottom s.rwc with
  | none =>
      cases hpr : popRequest s.rwc with
      | none =>
          constructor
          · intro h; cases h
          · intro h; cases h
      | some p =>
          obtain ⟨req, rwc1⟩ := p
          constructor
          · intro h
            cases h
            exact hsend _ req hnd
          · intro h
            cases h
  | some bottom =>
      cases hst : bottom.state with
      | FlushEnded =>
          dsimp only
          rw [hst]
          dsimp only
          constructor
          · intro h
            cases h
            exact hnd
          · intro h
            cases h
      | Bottom =>
          dsimp only
          rw [hst]
          dsimp only
          split
          · rename_i msg hrc
            exact dispatch_noDone _ _ _ _ _ hnd
          · split
            · split
              · constructor
                · intro h
                  cases h
                  exact hnd
                · intro h
                  cases h
              · cases hrb : recvBlocking s.chan with
                | none =>
                    constructor
                    · intro h; cases h
                    · intro h; cases h
                | some p =>
                    obtain ⟨msg, chan1⟩ := p
                    dsimp only
                    exact dispatch_noDone _ _ _ _ _ hnd
            · cases hpr : popRequest s.rwc with
              | none =>
                  constructor
                  · intro h; cases h
                  · intro h; cases h
              | some p =>
                  obtain ⟨req, rwc1⟩ := p
                  dsimp only
                  constructor
                  · intro h
                    cases h
                    exact hsend _ req hnd
                  · intro h
                    cases h

theorem run_noDone (mbar k fuel : Nat) (s s1 : SessionState) (e : String)
    (r : Option (List Zp)) (hnd : ReconMsg.Done ∉ sentMsgs s) :
    (run mbar k fuel s = RunResult.err e s1 → ReconMsg.Done ∉ sentMsgs s1) ∧
    (run mbar k fuel s = RunResult.finished s1 r →
      ReconMsg.Done ∈ sentMsgs s1 ∧ (r = none ↔ s1.rwc.rcvrSet = []) ∧
      (s1.rwc.rcvrSet ≠ [] → r = some (ZSet.Items s1.rwc.rcvrSet))) := by
  induction fuel generalizing s with
  | zero =>
      constructor
      · intro h
        cases h
      · intro h
        cases h
  | succ n ih =>
      rw [run]
      by_cases hd : isDone s.rwc
      · rw [if_pos hd]
        constructor
        · intro h
          cases h
        · intro h
          simp only [RunResult.finished.injEq] at h
          obtain ⟨h1, h2⟩ := h
          subst h1
          refine ⟨?_, ?_, ?_⟩
          · rw [sentMsgs_doWrite]
            exact List.mem_append.mpr (Or.inr (List.mem_singleton.mpr rfl))
          · rw [← h2]
            by_cases hl : (ZSet.Items (doWrite s ReconMsg.Done).rwc.rcvrSet).length = 0
            · rw [if_pos hl]
              simp only [ZSet.Items, List.length_eq_zero] at hl
              simp [hl]
            · rw [if_neg hl]
              simp only [ZSet.Items, List.length_eq_zero] at hl
              simp [hl]
          · intro hne
            rw [← h2, if_neg]
            intro hl
            simp only [ZSet.Items, List.length_eq_zero] at hl
            exact hne hl
      · rw [if_neg hd]
        cases hst : step mbar k s with
        | cont s2 => exact ih s2 ((step_noDone mbar k s s2 e hnd).1 hst)
        | err e2 s2 =>
            constructor
            · intro h
              cases h
              exact (step_noDone mbar k s s1 e hnd).2 hst
            · intro h
              cases h
        | stall s2 =>
            constructor
            · intro h
              cases h
            · intro h
              cases h
        | nilDeref s2 =>
            constructor
            · intro h
              cases h
            · intro h
              cases h

/-! ## write failures do not influence the session (strip congruence) -/

/-- The part of the session state the loop's control flow can observe:
everything except the write-result oracle and the per-write success
flags. -/
def strip (s : SessionState) : reconWithClient × Chan × List Bool × List ReconMsg :=
  (s.rwc, s.chan, s.polls, sentMsgs s)

/-- Step outcomes matched up to the write-result oracle. -/
def stepOutStrip : StepOut → StepOut → Prop
  | StepOut.cont s, StepOut.cont t => strip s = strip t
  | StepOut.err e s, StepOut.err f t => e = f ∧ strip s = strip t
  | StepOut.stall s, StepOut.stall t => strip s = strip t
  | StepOut.nilDeref s, StepOut.nilDeref t => strip s = strip t
  | _, _ => False

/-- Run results matched up to the write-result oracle. -/
def runStrip : RunResult → RunResult → Prop
  | RunResult.finished s r, RunResult.finished t r2 => strip s = strip t ∧ r = r2
  | RunResult.err e s, RunResult.err f t => e = f ∧ strip s = strip t
  | RunResult.stall s, RunResult.stall t => strip s = strip t
  | RunResult.nilDeref s, RunResult.nilDeref t => strip s = strip t
  | RunResult.outOfFuel s, RunResult.outOfFuel t => strip s = strip t
  | _, _ => False

theorem strip_components (s t : SessionState) (h : strip s = strip t) :
    s.rwc = t.rwc ∧ s.chan = t.chan ∧ s.polls = t.polls ∧ sentMsgs s = sentMsgs t := by
  simp only [strip, Prod.mk.injEq] at h
  exact h

theorem strip_eq_of (s t : SessionState) (h1 : s.rwc = t.rwc) (h2 : s.chan = t.chan)
    (h3 : s.polls = t.polls) (h4 : sentMsgs s = sentMsgs t) : strip s = strip t := by
  unfold strip
  rw [h1, h2, h3, h4]

theorem strip_doWrites (s : SessionState) (ms : List ReconMsg) :
    strip (doWrites s ms) = (s.rwc, s.chan, s.polls, sentMsgs s ++ ms) := by
  unfold strip
  rw [rwc_doWrites, chan_doWrites, polls_doWrites, sentMsgs_doWrites]

theorem strip_sendRequest (mbar : Nat) (s : SessionState) (req : requestEntry) :
    strip (sendRequest mbar s req)
      = (pushBottom s.rwc { req := some req, state := reconState.Bottom },
         s.chan, s.polls, sentMsgs s ++ [sendReqMsg mbar req]) := by
  unfold strip
  rw [rwc_sendRequest, chan_sendRequest, polls_sendRequest, sentMsgs_sendRequest]

theorem dispatch_strip (s t : SessionState) (msg : Option ReconMsg)
    (req : Option requestEntry) (h : strip s = strip t) :
    stepOutStrip (dispatch s msg req) (dispatch t msg req) := by
  obtain ⟨h1, h2, h3, h4⟩ := strip_components _ _ h
  unfold dispatch
  rw [h1]
  cases hd : handleReply t.rwc msg req with
  | ok rwc1 outs =>
      show strip (doWrites { s with rwc := rwc1 } outs) = strip (doWrites { t with rwc := rwc1 } outs)
      have e4 : sentMsgs { s with rwc := rwc1 } = sentMsgs { t with rwc := rwc1 } := h4
      rw [strip_doWrites, strip_doWrites, e4]
      dsimp only
      rw [h2, h3]
  | fail e => exact ⟨rfl, h⟩
  | nilPanic => exact h

theorem sendRequest_strip (mbar : Nat) (a b : SessionState) (req : requestEntry)
    (h : strip a = strip b) :
    strip (sendRequest mbar a req) = strip (sendRequest mbar b req) := by
  obtain ⟨h1, h2, h3, h4⟩ := strip_components _ _ h
  rw [strip_sendRequest, strip_sendRequest, h1, h2, h3, h4]

theorem step_strip (mbar k : Nat) (s t : SessionState) (h : strip s = strip t) :
    stepOutStrip (step mbar k s) (step mbar k t) := by
  obtain ⟨h1, h2, h3, h4⟩ := strip_components _ _ h
  unfold step
  rw [h1, h2, h3]
  cases htb : topBottom t.rwc with
  | none =>
      cases hpr : popRequest t.rwc with
      | none => exact h
      | some p =>
          obtain ⟨req, rwc1⟩ := p
          dsimp only
          exact sendRequest_strip mbar _ _ req (strip_eq_of _ _ rfl rfl rfl h4)
  | some bottom =>
      cases hst : bottom.state with
      | FlushEnded =>
          dsimp only
          rw [hst]
          dsimp only
          exact strip_eq_of _ _ rfl rfl rfl h4
      | Bottom =>
          dsimp only
          rw [hst]
          dsimp only
          cases hrc : (recvPoll (pollHead t.polls).1 t.chan).1 with
          | some msg =>
              dsimp only
              exact dispatch_strip _ _ _ _ (strip_eq_of _ _ rfl rfl rfl h4)
          | none =>
              dsimp only
              by_cases hc : (t.rwc.bottomQ.length > k ∨ t.rwc.requestQ.length = 0)
              · rw [if_pos hc, if_pos hc]
                by_cases hf : t.rwc.flushing = false
                · rw [if_pos hf, if_pos hf]
                  exact strip_eq_of _ _ rfl rfl rfl h4
                · rw [if_neg hf, if_neg hf]
                  cases hrb : recvBlocking t.chan with
                  | none => exact strip_eq_of _ _ rfl rfl rfl h4
                  | some p =>
                      obtain ⟨msg, chan1⟩ := p
                      dsimp only
                      exact dispatch_strip _ _ _ _ (strip_eq_of _ _ rfl rfl rfl h4)
              · rw [if_neg hc, if_neg hc]
                cases hpr : popRequest t.rwc with
                | none => exact strip_eq_of _ _ rfl rfl rfl h4
                | some p =>
                    obtain ⟨req, rwc1⟩ := p
                    dsimp only
                    exact sendRequest_strip mbar _ _ req (strip_eq_of _ _ rfl rfl rfl h4)

theorem run_strip (mbar k fuel : Nat) (s t : SessionState) (h : strip s = strip t) :
    runStrip (run mbar k fuel s) (run mbar k fuel t) := by
  induction fuel generalizing s t with
  | zero => exact h
  | succ n ih =>
      obtain ⟨h1, h2, h3, h4⟩ := strip_components _ _ h
      rw [run, run]
      by_cases hd : isDone t.rwc
      · rw [if_pos (by rw [h1]; exact hd), if_pos hd]
        constructor
        · have e4 : sentMsgs (doWrite s ReconMsg.Done) = sentMsgs (doWrite t ReconMsg.Done) := by
            rw [sentMsgs_doWrite, sentMsgs_doWrite, h4]
          exact strip_eq_of _ _ (by rw [rwc_doWrite, rwc_doWrite, h1])
            (by rw [chan_doWrite, chan_doWrite, h2])
            (by rw [polls_doWrite, polls_doWrite, h3]) e4
        · rw [show (doWrite s ReconMsg.Done).rwc = t.rwc from by rw [rwc_doWrite, h1],
            show (doWrite t ReconMsg.Done).rwc = t.rwc from by rw [rwc_doWrite]]
      · rw [if_neg (by rw [h1]; exact hd), if_neg hd]
        have hss := step_strip mbar k s t h
        cases hs1 : step mbar k s with
        | cont s1 =>
            cases hs2 : step mbar k t with
            | cont t1 =>
                rw [hs1, hs2] at hss
                exact ih _ _ hss
            | err e t1 => rw [hs1, hs2] at hss; exact hss.elim
            | stall t1 => rw [hs1, hs2] at hss; exact hss.elim
            | nilDeref t1 => rw [hs1, hs2] at hss; exact hss.elim
        | err e s1 =>
            cases hs2 : step mbar k t with
            | cont t1 => rw [hs1, hs2] at hss; exact hss.elim
            | err f t1 =>
                rw [hs1, hs2] at hss
                exact hss
            | stall t1 => rw [hs1, hs2] at hss; exact hss.elim
            | nilDeref t1 => rw [hs1, hs2] at hss; exact hss.elim
        | stall s1 =>
            cases hs2 : step mbar k t with
            | cont t1 => rw [hs1, hs2] at hss; exact hss.elim
            | err f t1 => rw [hs1, hs2] at hss; exact hss.elim
            | stall t1 =>
                rw [hs1, hs2] at hss
                exact hss
            | nilDeref t1 => rw [hs1, hs2] at hss; exact hss.elim
        | nilDeref s1 =>
            cases hs2 : step mbar k t with
            | cont t1 => rw [hs1, hs2] at hss; exact hss.elim
            | err f t1 => rw [hs1, hs2] at hss; exact hss.elim
            | stall t1 => rw [hs1, hs2] at hss; exact hss.elim
            | nilDeref t1 =>
                rw [hs1, hs2] at hss
                exact hss

/-- C1 (amended): with MaxOutstandingReconRequests = k, the number of
simultaneously in-flight (unreplied) Bottom entries in the bottom queue
never exceeds k + 1: the flow-control invariant (at most one barrier,
flushing flag tracking it, at most k + 1 in-flight entries) holds at the
initial state, is preserved by every loop iteration, and bounds the
in-flight count. The bound k of the original claim is exceeded by one
before any barrier is pushed, because the pipelining branch allows a new
send whenever the whole bottom queue holds at most k entries. -/
theorem C1_flow_control (mbar k : Nat) (s s1 : SessionState) (root : PrefixNode)
    (key : Bitstring) (chan : Chan) (polls writeOk : List Bool)
    (hInv : FlowInv k s) :
    countBottom s.rwc.bottomQ ≤ k + 1 ∧
    (step mbar k s = StepOut.cont s1 → FlowInv k s1) ∧
    FlowInv k (initState root key chan polls writeOk) := by
  refine ⟨hInv.2.2, fun hstep => step_preserves_Inv mbar k s s1 hInv hstep, ?_, ?_, ?_⟩
  · show countFlush [] ≤ 1
    decide
  · show (false = true) ↔ countFlush [] = 1
    decide
  · show countBottom [] ≤ k + 1
    exact Nat.zero_le _

theorem C1_flow_control_witness :
    countBottom (initState leafNode [] chanSync [] []).rwc.bottomQ ≤ 1 + 1 ∧
    (step 1 1 (initState leafNode [] chanSync [] [])
        = StepOut.cont (initState leafNode [] chanSync [] [])
      → FlowInv 1 (initState leafNode [] chanSync [] [])) ∧
    FlowInv 1 (initState leafNode [] chanSync [] []) :=
  C1_flow_control 1 1 (initState leafNode [] chanSync [] [])
    (initState leafNode [] chanSync [] []) leafNode [] chanSync [] []
    (by refine ⟨?_, ?_, ?_⟩ <;> decide)

/-- C10: the loop never dereferences a nil request entry: a run from a
well-formed state never reaches the nil-dereference outcome, and whenever
the loop runs (isDone false) with an empty bottom queue, the request
queue is non-empty, so popRequest returns an entry for sendRequest. -/
theorem C10_no_nil_deref (mbar k fuel : Nat) (s : SessionState) (hWB : WB s) :
    isNilDeref (run mbar k fuel s) = false ∧
    (isDone s.rwc = false → topBottom s.rwc = none → popRequest s.rwc ≠ none) := by
  refine ⟨run_no_nilDeref mbar k fuel s hWB, ?_⟩
  intro hd htb hpr
  rw [isDone, popRequest_none _ hpr, topBottom_none _ htb] at hd
  simp at hd

theorem C10_no_nil_deref_witness :
    isNilDeref (run 2 5 10 (initState leafNode [] chanSync [] [])) = false ∧
    (isDone (initState leafNode [] chanSync [] []).rwc = false →
      topBottom (initState leafNode [] chanSync [] []).rwc = none →
      popRequest (initState leafNode [] chanSync [] []).rwc ≠ none) :=
  C10_no_nil_deref 2 5 10 (initState leafNode [] chanSync [] [])
    (by intro e he; simp [initState] at he)

/-- C6: Recover events exist only on the finished outcome of the loop:
an error abort yields an err result carrying no Recover payload and no
Done message was ever sent (given none was sent before); a finished run
has written Done, and its Recover payload is none exactly when the
accumulated set is empty and is exactly the accumulated set otherwise. -/
theorem C6_recover_only_on_success (mbar k fuel : Nat) (s s1 : SessionState)
    (e : String) (r : Option (List Zp)) (hnd : ReconMsg.Done ∉ sentMsgs s) :
    (run mbar k fuel s = RunResult.err e s1 → ReconMsg.Done ∉ sentMsgs s1) ∧
    (run mbar k fuel s = RunResult.finished s1 r →
      ReconMsg.Done ∈ sentMsgs s1 ∧ (r = none ↔ s1.rwc.rcvrSet = []) ∧
      (s1.rwc.rcvrSet ≠ [] → r = some (ZSet.Items s1.rwc.rcvrSet))) :=
  run_noDone mbar k fuel s s1 e r hnd

theorem C6_recover_only_on_success_witness :
    (run 5 5 5 (initState leafNode [] chanSync [true] [])
        = RunResult.err "Syncfail received at leaf node"
            (initState leafNode [] chanSync [true] [])
      → ReconMsg.Done ∉ sentMsgs (initState leafNode [] chanSync [true] [])) ∧
    (run 5 5 5 (initState leafNode [] chanSync [true] [])
        = RunResult.finished (initState leafNode [] chanSync [true] []) none →
      ReconMsg.Done ∈ sentMsgs (initState leafNode [] chanSync [true] []) ∧
      (none = (none : Option (List Zp))
        ↔ (initState leafNode [] chanSync [true] []).rwc.rcvrSet = []) ∧
      ((initState leafNode [] chanSync [true] []).rwc.rcvrSet ≠ [] →
        (none : Option (List Zp))
          = some (ZSet.Items (initState leafNode [] chanSync [true] []).rwc.rcvrSet))) :=
  C6_recover_only_on_success 5 5 5 (initState leafNode [] chanSync [true] [])
    (initState leafNode [] chanSync [true] []) "Syncfail received at leaf node" none
    (by simp [initState, sentMsgs])

/-- C4 (amended): a read failure closes the inbound channel, after which
every receive — blocking or polled — delivers a nil message whose
dispatch fails with an unexpected-message error, aborting the session;
write failures, however, are invisible to the session: the loop's
outcome, state and message sequence are identical under any two
write-result oracles, because peer.go discards WriteMsg's error at every
call site in the loop. -/
theorem C4_transport_failures (mbar k fuel : Nat) (s : SessionState)
    (w1 w2 : List Bool) (rwc : reconWithClient) (req : Option requestEntry) :
    runStrip (run mbar k fuel { s with writeOk := w1 })
        (run mbar k fuel { s with writeOk := w2 }) ∧
    handleReply rwc none req = HandleResult.fail "unexpected message" ∧
    recvBlocking { pending := [], willClose := true }
        = some (none, { pending := [], willClose := true }) ∧
    recvPoll true { pending := [], willClose := true }
        = (some none, { pending := [], willClose := true }) :=
  ⟨run_strip mbar k fuel _ _ rfl, rfl, rfl, rfl⟩

theorem C4_transport_failures_witness :
    runStrip (run 5 5 5 { initState leafNode [] chanFull [true] [] with writeOk := [false] })
        (run 5 5 5 { initState leafNode [] chanFull [true] [] with writeOk := [] }) ∧
    handleReply { requestQ := [], bottomQ := [], rcvrSet := [], flushing := false }
        none none = HandleResult.fail "unexpected message" ∧
    recvBlocking { pending := [], willClose := true }
        = some (none, { pending := [], willClose := true }) ∧
    recvPoll true { pending := [], willClose := true }
        = (some none, { pending := [], willClose := true }) :=
  C4_transport_failures 5 5 5 (initState leafNode [] chanFull [true] []) [false] []
    { requestQ := [], bottomQ := [], rcvrSet := [], flushing := false } none
